import Mathlib

/-!
Verification of the `retool-mcp` adapter (`src/index.ts`): a tool
registry that maps 19 declared MCP tools onto single HTTP calls against
the Retool REST API and renders results or failures into MCP envelopes.

The embedding models the JavaScript values that cross the boundary:
JSON documents, thrown values, fetch outcomes, HTTP requests; the
`RetoolClient` methods, `formatResponse` / `formatError`, and the 19
registered tool handlers are translated from the source.  Each tool
invocation returns, besides its envelope, the list of outbound HTTP
requests it issued, so that request-counting and request-shape claims
can be stated.
-/

mutual

/-- A JSON document, modelling the JavaScript values produced by
`response.json()` and serialized by `JSON.stringify` (numbers modelled
as integers).  Arrays and objects carry their own list types so that
the serializers below are structurally recursive. -/
inductive Json where
  | null : Json
  | bool (b : Bool) : Json
  | num (n : Int) : Json
  | str (s : String) : Json
  | arr (elems : JsonArr) : Json
  | obj (fields : JsonObj) : Json

/-- A list of JSON values (a JSON array). -/
inductive JsonArr where
  | nil : JsonArr
  | cons (hd : Json) (tl : JsonArr) : JsonArr

/-- A list of key/value fields (a JSON object). -/
inductive JsonObj where
  | nil : JsonObj
  | cons (key : String) (val : Json) (tl : JsonObj) : JsonObj

end

/-- Uppercase hexadecimal digit. -/
def hexDigit (n : Nat) : Char :=
  if n < 10 then Char.ofNat (48 + n) else Char.ofNat (55 + n)

/-- Lowercase hexadecimal digit (as used in `\uXXXX` escapes). -/
def hexDigitLower (n : Nat) : Char :=
  if n < 10 then Char.ofNat (48 + n) else Char.ofNat (87 + n)

/-- Four lowercase hex digits, for `JSON.stringify` control-character
escapes. -/
def hex4 (n : Nat) : String :=
  String.mk [hexDigitLower (n / 4096 % 16), hexDigitLower (n / 256 % 16),
             hexDigitLower (n / 16 % 16), hexDigitLower (n % 16)]

/-- Model of the escaping `JSON.stringify` applies to one character of a
string literal. -/
def escapeJsonChar (c : Char) : String :=
  if c = '"' then "\\\""
  else if c = '\\' then "\\\\"
  else if c.toNat = 8 then "\\b"
  else if c.toNat = 9 then "\\t"
  else if c.toNat = 10 then "\\n"
  else if c.toNat = 12 then "\\f"
  else if c.toNat = 13 then "\\r"
  else if c.toNat < 32 then "\\u" ++ hex4 c.toNat
  else String.singleton c

/-- Model of a `JSON.stringify` string literal: quoted and escaped. -/
def escapeJsonString (s : String) : String :=
  "\"" ++ String.join (s.data.map escapeJsonChar) ++ "\""

mutual

/-- Model of the JavaScript builtin `JSON.stringify(v)` (no indent
argument), as used for request bodies. -/
def jsonStringify : Json → String
  | .null => "null"
  | .bool b => cond b "true" "false"
  | .num n => toString n
  | .str s => escapeJsonString s
  | .arr .nil => "[]"
  | .arr (.cons x xs) => "[" ++ jsonStringify x ++ jsonStringifyArr xs ++ "]"
  | .obj .nil => "\x7b\x7d"
  | .obj (.cons k v fs) =>
      "\x7b" ++ escapeJsonString k ++ ":" ++ jsonStringify v ++ jsonStringifyObj fs ++ "\x7d"

/-- Remaining array elements, each preceded by a comma. -/
def jsonStringifyArr : JsonArr → String
  | .nil => ""
  | .cons x xs => "," ++ jsonStringify x ++ jsonStringifyArr xs

/-- Remaining object fields, each preceded by a comma. -/
def jsonStringifyObj : JsonObj → String
  | .nil => ""
  | .cons k v fs => "," ++ escapeJsonString k ++ ":" ++ jsonStringify v ++ jsonStringifyObj fs

end

/-- Indentation of 2·lvl spaces. -/
def indentOf (lvl : Nat) : String :=
  String.mk (List.replicate (2 * lvl) ' ')

mutual

/-- Model of the JavaScript builtin `JSON.stringify(v, null, 2)`:
serialization with two-space indentation, as used by `formatResponse`. -/
def jsonStringify2 (lvl : Nat) : Json → String
  | .null => "null"
  | .bool b => cond b "true" "false"
  | .num n => toString n
  | .str s => escapeJsonString s
  | .arr .nil => "[]"
  | .arr (.cons x xs) =>
      "[\n" ++ indentOf (lvl + 1) ++ jsonStringify2 (lvl + 1) x ++
        jsonStringify2Arr (lvl + 1) xs ++ "\n" ++ indentOf lvl ++ "]"
  | .obj .nil => "\x7b\x7d"
  | .obj (.cons k v fs) =>
      "\x7b\n" ++ indentOf (lvl + 1) ++ escapeJsonString k ++ ": " ++
        jsonStringify2 (lvl + 1) v ++ jsonStringify2Obj (lvl + 1) fs ++
        "\n" ++ indentOf lvl ++ "\x7d"

/-- Remaining array elements at the given indent level. -/
def jsonStringify2Arr (lvl : Nat) : JsonArr → String
  | .nil => ""
  | .cons x xs =>
      ",\n" ++ indentOf lvl ++ jsonStringify2 lvl x ++ jsonStringify2Arr lvl xs

/-- Remaining object fields at the given indent level. -/
def jsonStringify2Obj (lvl : Nat) : JsonObj → String
  | .nil => ""
  | .cons k v fs =>
      ",\n" ++ indentOf lvl ++ escapeJsonString k ++ ": " ++
        jsonStringify2 lvl v ++ jsonStringify2Obj lvl fs

end

/-! ## JavaScript runtime values at the fetch boundary -/

/-- A value thrown / rejected with in JavaScript: either an `Error`
instance carrying a message, or any other value.  `formatError`
distinguishes the two with `instanceof Error`. -/
inductive Thrown where
  | errObj (message : String) : Thrown
  | nonError : Thrown
deriving Repr, DecidableEq

/-- Model of `error instanceof Error ? error.message : "Unknown error occurred"`
(the selection made inside `formatError`). -/
def thrownMessage : Thrown → String
  | .errObj m => m
  | .nonError => "Unknown error occurred"

/-- A resolved `fetch` response: its HTTP status, the text of its body
(as read by `response.text()`), and the outcome of `response.json()`
(which rejects on a body that is not valid JSON). -/
structure FetchResponse where
  status : Nat
  bodyText : String
  jsonBody : Except Thrown Json

/-- Model of `Response.ok`: status in the inclusive range 200–299. -/
def FetchResponse.ok (r : FetchResponse) : Bool :=
  decide (200 ≤ r.status) && decide (r.status < 300)

/-- The environment's answer to one `fetch` call: the promise either
rejects (network failure) or resolves to a response. -/
inductive FetchOutcome where
  | reject (e : Thrown) : FetchOutcome
  | resolve (r : FetchResponse) : FetchOutcome

/-- An outbound HTTP request as handed to `fetch`: method, URL, header
list, and optional string body. -/
structure HttpRequest where
  method : String
  url : String
  headers : List (String × String)
  body : Option String

/-! ## RetoolClient (src/index.ts lines 16–160) -/

/-- A request body object literal as written at the `request` call
sites: field names paired with possibly-`undefined` values
(`JSON.stringify` drops the `undefined` ones). -/
def BodyObj := List (String × Option Json)

/-- Model of `JSON.stringify(body)` on a body object literal: `undefined` fields
are dropped, the rest serialized compactly. -/
def stringifyBody (b : BodyObj) : String :=
  jsonStringify (.obj (b.foldr (fun f acc =>
    match f.2 with
    | some v => JsonObj.cons f.1 v acc
    | none => acc) .nil))

/-- The Retool API client: base URL and API key, both private fields
set once in the constructor. -/
structure RetoolClient where
  baseUrl : String
  apiKey : String

/-- Model of `baseUrl.replace(/\/$/, "")`: drop one trailing `/` when present. -/
def stripSlash (s : String) : String :=
  if s.data.getLast? = some '/' then String.mk s.data.dropLast else s

/-- The constructor `new RetoolClient(baseUrl, apiKey)`. -/
def RetoolClient.make (baseUrl apiKey : String) : RetoolClient :=
  { baseUrl := stripSlash baseUrl, apiKey := apiKey }

/-- The request `RetoolClient.request` hands to `fetch`: URL
`baseUrl + "/api/v2" + endpoint`, `Authorization` and `Content-Type`
headers, and `body ? JSON.stringify(body) : undefined` (every call site
that passes a body passes an object literal, which is truthy). -/
def RetoolClient.fetchArgs (c : RetoolClient) (method endpoint : String)
    (body : Option BodyObj) : HttpRequest :=
  { method := method
    url := c.baseUrl ++ "/api/v2" ++ endpoint
    headers := [("Authorization", "Bearer " ++ c.apiKey),
                ("Content-Type", "application/json")]
    body := body.map stringifyBody }

/-- Translation of `RetoolClient.request`: issue the single `fetch`; on a non-ok
response read the body text and throw
`Error("Retool API error (status): text")`; otherwise return
`response.json()`.  A rejected `fetch` propagates.  The issued requests
are returned alongside the outcome. -/
def RetoolClient.request (c : RetoolClient) (method endpoint : String)
    (body : Option BodyObj) (oracle : FetchOutcome) :
    List HttpRequest × Except Thrown Json :=
  let req := c.fetchArgs method endpoint body
  match oracle with
  | .reject e => ([req], .error e)
  | .resolve r =>
      if r.ok then ([req], r.jsonBody)
      else ([req], .error (.errObj
        ("Retool API error (" ++ toString r.status ++ "): " ++ r.bodyText)))

def RetoolClient.listApps (c : RetoolClient) (o : FetchOutcome) :=
  c.request "GET" "/apps" none o

def RetoolClient.getApp (c : RetoolClient) (appId : String) (o : FetchOutcome) :=
  c.request "GET" ("/apps/" ++ appId) none o

def RetoolClient.createApp (c : RetoolClient) (name : String)
    (folderId : Option String) (o : FetchOutcome) :=
  c.request "POST" "/apps"
    (some [("name", some (.str name)), ("folder_id", folderId.map .str)]) o

def RetoolClient.deleteApp (c : RetoolClient) (appId : String) (o : FetchOutcome) :=
  c.request "DELETE" ("/apps/" ++ appId) none o

def RetoolClient.createAppRelease (c : RetoolClient) (appId : String)
    (version : Option String) (o : FetchOutcome) :=
  c.request "POST" ("/apps/" ++ appId ++ "/releases")
    (some [("version", version.map .str)]) o

def RetoolClient.listFolders (c : RetoolClient) (o : FetchOutcome) :=
  c.request "GET" "/folders" none o

def RetoolClient.createFolder (c : RetoolClient) (name : String)
    (parentFolderId : Option String) (o : FetchOutcome) :=
  c.request "POST" "/folders"
    (some [("name", some (.str name)),
           ("parent_folder_id", parentFolderId.map .str)]) o

def RetoolClient.listWorkflows (c : RetoolClient) (o : FetchOutcome) :=
  c.request "GET" "/workflows" none o

def RetoolClient.triggerWorkflow (c : RetoolClient) (workflowId : String)
    (data : Option JsonObj) (o : FetchOutcome) :=
  c.request "POST" ("/workflows/" ++ workflowId ++ "/trigger")
    (some [("data", data.map .obj)]) o

def RetoolClient.listResources (c : RetoolClient) (o : FetchOutcome) :=
  c.request "GET" "/resources" none o

def RetoolClient.getResource (c : RetoolClient) (resourceId : String) (o : FetchOutcome) :=
  c.request "GET" ("/resources/" ++ resourceId) none o

def RetoolClient.listUsers (c : RetoolClient) (o : FetchOutcome) :=
  c.request "GET" "/users" none o

def RetoolClient.getUser (c : RetoolClient) (userId : String) (o : FetchOutcome) :=
  c.request "GET" ("/users/" ++ userId) none o

def RetoolClient.createUser (c : RetoolClient) (email : String)
    (firstName lastName : Option String) (o : FetchOutcome) :=
  c.request "POST" "/users"
    (some [("email", some (.str email)),
           ("first_name", firstName.map .str),
           ("last_name", lastName.map .str)]) o

def RetoolClient.deactivateUser (c : RetoolClient) (userId : String) (o : FetchOutcome) :=
  c.request "POST" ("/users/" ++ userId ++ "/deactivate") none o

def RetoolClient.listGroups (c : RetoolClient) (o : FetchOutcome) :=
  c.request "GET" "/groups" none o

def RetoolClient.getGroup (c : RetoolClient) (groupId : String) (o : FetchOutcome) :=
  c.request "GET" ("/groups/" ++ groupId) none o

def RetoolClient.addUserToGroup (c : RetoolClient) (groupId userId : String)
    (o : FetchOutcome) :=
  c.request "POST" ("/groups/" ++ groupId ++ "/members")
    (some [("user_id", some (.str userId))]) o

def RetoolClient.listSourceControlSettings (c : RetoolClient) (o : FetchOutcome) :=
  c.request "GET" "/source_control/settings" none o

/-! ### URLSearchParams and getAuditLogs -/

/-- UTF-8 bytes of one character, from its code point. -/
def utf8Bytes (c : Char) : List Nat :=
  let n := c.toNat
  if n < 128 then [n]
  else if n < 2048 then [192 + n / 64, 128 + n % 64]
  else if n < 65536 then [224 + n / 4096, 128 + n / 64 % 64, 128 + n % 64]
  else [240 + n / 262144, 128 + n / 4096 % 64, 128 + n / 64 % 64, 128 + n % 64]

/-- Percent-encoding of one byte, uppercase hex. -/
def percentByte (b : Nat) : String :=
  String.mk ['%', hexDigit (b / 16 % 16), hexDigit (b % 16)]

/-- The `application/x-www-form-urlencoded` serialization of one character,
as `URLSearchParams.toString` performs it: `*`, `-`, `.`, `_` and
ASCII alphanumerics stay, space becomes `+`, everything else is
percent-encoded byte-wise. -/
def formEncodeChar (c : Char) : String :=
  if c = ' ' then "+"
  else if c.isAlphanum || c = '*' || c = '-' || c = '.' || c = '_' then
    String.singleton c
  else String.join ((utf8Bytes c).map percentByte)

/-- Model of `URLSearchParams` value encoding. -/
def formEncode (s : String) : String :=
  String.join (s.data.map formEncodeChar)

/-- One `key=value` entry of a serialized `URLSearchParams`. -/
def formEncodePair (p : String × String) : String :=
  formEncode p.1 ++ "=" ++ formEncode p.2

/-- Model of `URLSearchParams.toString()` on an append-ordered pair list:
`&`-separated `key=value` entries. -/
def urlSearchParamsToString : List (String × String) → String
  | [] => ""
  | [p] => formEncodePair p
  | p :: ps => formEncodePair p ++ "&" ++ urlSearchParamsToString ps

/-- JavaScript truthiness of a `string | undefined` value: an absent or
empty string is falsy. -/
def truthyStr : Option String → Bool
  | none => false
  | some s => !(s = "")

/-- The endpoint computed by `RetoolClient.getAuditLogs` (lines
153–157): append `start_date` then `end_date` to a `URLSearchParams`
when each is truthy, and attach `?…` to `/audit_logs` when the
serialized params are nonempty. -/
def auditEndpoint (startDate endDate : Option String) : String :=
  let params : List (String × String) :=
    (if truthyStr startDate then [("start_date", startDate.getD "")] else []) ++
    (if truthyStr endDate then [("end_date", endDate.getD "")] else [])
  let qs := urlSearchParamsToString params
  if qs = "" then "/audit_logs" else "/audit_logs?" ++ qs

/-- Translation of `RetoolClient.getAuditLogs`. -/
def RetoolClient.getAuditLogs (c : RetoolClient)
    (startDate endDate : Option String) (o : FetchOutcome) :
    List HttpRequest × Except Thrown Json :=
  c.request "GET" (auditEndpoint startDate endDate) none o

/-! ## MCP envelopes (src/index.ts lines 170–193) -/

/-- One content item of an MCP result envelope. -/
structure ContentItem where
  type : String
  text : String
deriving Repr, DecidableEq

/-- The envelope a tool handler returns to the protocol host.
`formatResponse` returns an object without an `isError` property, and
`formatError` one with `isError: true`, so the field is an `Option`. -/
structure Envelope where
  content : List ContentItem
  isError : Option Bool
deriving Repr, DecidableEq

/-- Translation of `formatResponse(result)`: one `text` item holding
`JSON.stringify(result, null, 2)`, no `isError` property. -/
def formatResponse (result : Json) : Envelope :=
  { content := [{ type := "text", text := jsonStringify2 0 result }]
    isError := none }

/-- Translation of `formatError(error)`: one `text` item holding `"Error: "` followed
by the error's message (or `"Unknown error occurred"` for a non-`Error`
value), with `isError: true`. -/
def formatError (error : Thrown) : Envelope :=
  { content := [{ type := "text", text := "Error: " ++ thrownMessage error }]
    isError := some true }

/-! ## The 19 registered tools (src/index.ts lines 198–490) -/

/-- One call of a registered tool with arguments accepted by its zod
schema: `z.string()` becomes `String`, `.optional()` becomes `Option`,
`z.record(z.unknown())` becomes a JSON object. -/
inductive ToolCall where
  | listApps : ToolCall
  | getApp (app_id : String) : ToolCall
  | createApp (name : String) (folder_id : Option String) : ToolCall
  | deleteApp (app_id : String) : ToolCall
  | createAppRelease (app_id : String) (version : Option String) : ToolCall
  | listFolders : ToolCall
  | createFolder (name : String) (parent_folder_id : Option String) : ToolCall
  | listWorkflows : ToolCall
  | triggerWorkflow (workflow_id : String) (data : Option JsonObj) : ToolCall
  | listResources : ToolCall
  | getResource (resource_id : String) : ToolCall
  | listUsers : ToolCall
  | getUser (user_id : String) : ToolCall
  | createUser (email : String) (first_name last_name : Option String) : ToolCall
  | deactivateUser (user_id : String) : ToolCall
  | listGroups : ToolCall
  | getGroup (group_id : String) : ToolCall
  | addUserToGroup (group_id user_id : String) : ToolCall
  | getAuditLogs (start_date end_date : Option String) : ToolCall

/-- The name under which each handler is registered with `server.tool`. -/
def toolName : ToolCall → String
  | .listApps .. => "retool_list_apps"
  | .getApp .. => "retool_get_app"
  | .createApp .. => "retool_create_app"
  | .deleteApp .. => "retool_delete_app"
  | .createAppRelease .. => "retool_create_app_release"
  | .listFolders .. => "retool_list_folders"
  | .createFolder .. => "retool_create_folder"
  | .listWorkflows .. => "retool_list_workflows"
  | .triggerWorkflow .. => "retool_trigger_workflow"
  | .listResources .. => "retool_list_resources"
  | .getResource .. => "retool_get_resource"
  | .listUsers .. => "retool_list_users"
  | .getUser .. => "retool_get_user"
  | .createUser .. => "retool_create_user"
  | .deactivateUser .. => "retool_deactivate_user"
  | .listGroups .. => "retool_list_groups"
  | .getGroup .. => "retool_get_group"
  | .addUserToGroup .. => "retool_add_user_to_group"
  | .getAuditLogs .. => "retool_get_audit_logs"

/-- The shared handler body: `try { formatResponse(await client.…) }
catch (error) { return formatError(error) }` — every one of the 19
registrations wraps its single client call in exactly this pattern. -/
def handleClientCall (r : List HttpRequest × Except Thrown Json) :
    List HttpRequest × Envelope :=
  match r with
  | (reqs, .ok j) => (reqs, formatResponse j)
  | (reqs, .error e) => (reqs, formatError e)

/-- Run the registered handler for one tool call against the fetch
environment `o`, returning the issued requests and the envelope. -/
def callTool (c : RetoolClient) (call : ToolCall) (o : FetchOutcome) :
    List HttpRequest × Envelope :=
  match call with
  | .listApps => handleClientCall (c.listApps o)
  | .getApp a => handleClientCall (c.getApp a o)
  | .createApp n f => handleClientCall (c.createApp n f o)
  | .deleteApp a => handleClientCall (c.deleteApp a o)
  | .createAppRelease a v => handleClientCall (c.createAppRelease a v o)
  | .listFolders => handleClientCall (c.listFolders o)
  | .createFolder n p => handleClientCall (c.createFolder n p o)
  | .listWorkflows => handleClientCall (c.listWorkflows o)
  | .triggerWorkflow w d => handleClientCall (c.triggerWorkflow w d o)
  | .listResources => handleClientCall (c.listResources o)
  | .getResource r => handleClientCall (c.getResource r o)
  | .listUsers => handleClientCall (c.listUsers o)
  | .getUser u => handleClientCall (c.getUser u o)
  | .createUser e f l => handleClientCall (c.createUser e f l o)
  | .deactivateUser u => handleClientCall (c.deactivateUser u o)
  | .listGroups => handleClientCall (c.listGroups o)
  | .getGroup g => handleClientCall (c.getGroup g o)
  | .addUserToGroup g u => handleClientCall (c.addUserToGroup g u o)
  | .getAuditLogs s e => handleClientCall (c.getAuditLogs s e o)

/-- The tool names passed to `server.tool`, in registration order. -/
def registeredToolNames : List String :=
  ["retool_list_apps", "retool_get_app", "retool_create_app",
   "retool_delete_app", "retool_create_app_release", "retool_list_folders",
   "retool_create_folder", "retool_list_workflows", "retool_trigger_workflow",
   "retool_list_resources", "retool_get_resource", "retool_list_users",
   "retool_get_user", "retool_create_user", "retool_deactivate_user",
   "retool_list_groups", "retool_get_group", "retool_add_user_to_group",
   "retool_get_audit_logs"]

/-- Modelled from the spec: the protocol host reaches the adapter only
through the registry's two operations (list tools, call tool); the
`McpServer` dispatch — whose implementation lives in the MCP SDK, not
in this repository — looks a requested name up among the names
registered via `server.tool` and reaches no handler for a name outside
them. -/
def dispatchToolName (name : String) : Option String :=
  registeredToolNames.find? (fun n => n = name)

/-! ## Startup configuration (src/index.ts lines 8–13, 162) -/

/-- JavaScript `a || b` on a `string | undefined` environment value:
an absent or empty string falls back to the default. -/
def jsOrDefault (v : Option String) (dflt : String) : String :=
  match v with
  | some s => if s = "" then dflt else s
  | none => dflt

/-- Resolution of `process.env.RETOOL_URL || "https://retool.example.com"`. -/
def resolveRetoolUrl (env : Option String) : String :=
  jsOrDefault env "https://retool.example.com"

/-- Resolution of `process.env.RETOOL_API_KEY || ""`. -/
def resolveRetoolApiKey (env : Option String) : String :=
  jsOrDefault env ""

/-- The warnings printed at startup: one when the resolved API key is
falsy, none otherwise. -/
def startupWarnings (apiKey : String) : List String :=
  if apiKey = "" then
    ["Warning: RETOOL_API_KEY environment variable is not set"]
  else []

/-! ## Sequential invocations (for the statelessness claim) -/

/-- Run a sequence of tool invocations against one client, threading
the client value through (the translation of each method returns the
client unchanged because no method assigns to `this.baseUrl` or
`this.apiKey`); collect every issued request. -/
def runSeq (c : RetoolClient) : List (ToolCall × FetchOutcome) →
    RetoolClient × List HttpRequest
  | [] => (c, [])
  | (call, o) :: rest =>
      let out := callTool c call o
      let next := runSeq c rest
      (next.1, out.1 ++ next.2)

/-! ## Derived request shapes and basic lemmas -/

/-- The body object literal each tool's client method passes to
`request` (`none` for the bodyless calls). -/
def toolBody : ToolCall → Option BodyObj
  | .createApp n f => some [("name", some (.str n)), ("folder_id", f.map .str)]
  | .createAppRelease _ v => some [("version", v.map .str)]
  | .createFolder n p =>
      some [("name", some (.str n)), ("parent_folder_id", p.map .str)]
  | .triggerWorkflow _ d => some [("data", d.map .obj)]
  | .createUser e f l =>
      some [("email", some (.str e)), ("first_name", f.map .str),
            ("last_name", l.map .str)]
  | .addUserToGroup _ u => some [("user_id", some (.str u))]
  | _ => none

/-- The HTTP method each tool's client method passes to `request`. -/
def toolMethod : ToolCall → String
  | .createApp .. | .createAppRelease .. | .createFolder ..
  | .triggerWorkflow .. | .createUser .. | .deactivateUser ..
  | .addUserToGroup .. => "POST"
  | .deleteApp .. => "DELETE"
  | _ => "GET"

/-- The endpoint each tool's client method passes to `request`. -/
def toolEndpoint : ToolCall → String
  | .listApps => "/apps"
  | .getApp a => "/apps/" ++ a
  | .createApp .. => "/apps"
  | .deleteApp a => "/apps/" ++ a
  | .createAppRelease a _ => "/apps/" ++ a ++ "/releases"
  | .listFolders => "/folders"
  | .createFolder .. => "/folders"
  | .listWorkflows => "/workflows"
  | .triggerWorkflow w _ => "/workflows/" ++ w ++ "/trigger"
  | .listResources => "/resources"
  | .getResource r => "/resources/" ++ r
  | .listUsers => "/users"
  | .getUser u => "/users/" ++ u
  | .createUser .. => "/users"
  | .deactivateUser u => "/users/" ++ u ++ "/deactivate"
  | .listGroups => "/groups"
  | .getGroup g => "/groups/" ++ g
  | .addUserToGroup g _ => "/groups/" ++ g ++ "/members"
  | .getAuditLogs s e => auditEndpoint s e

/-- The single HTTP request a tool invocation hands to `fetch`. -/
def toolFetchArgs (c : RetoolClient) (call : ToolCall) : HttpRequest :=
  c.fetchArgs (toolMethod call) (toolEndpoint call) (toolBody call)

/-- The value a failing HTTP call throws into the handler: the fetch
rejection itself, or the `Error` that `request` constructs from a
non-ok response; `none` when the response is ok. -/
def outcomeThrown : FetchOutcome → Option Thrown
  | .reject e => some e
  | .resolve r =>
      if r.ok then none
      else some (.errObj
        ("Retool API error (" ++ toString r.status ++ "): " ++ r.bodyText))

/-! ## Claim-side definitions -/

/-- The CRUD method the claim ascribes to each tool, by its grouping of
the 19 tool names: list/get tools GET, mutating tools POST, deletion
DELETE. -/
def claimMethod (call : ToolCall) : String :=
  if toolName call ∈ ["retool_list_apps", "retool_get_app",
      "retool_list_folders", "retool_list_workflows", "retool_list_resources",
      "retool_get_resource", "retool_list_users", "retool_get_user",
      "retool_list_groups", "retool_get_group", "retool_get_audit_logs"] then
    "GET"
  else if toolName call ∈ ["retool_create_app", "retool_create_app_release",
      "retool_create_folder", "retool_trigger_workflow", "retool_create_user",
      "retool_deactivate_user", "retool_add_user_to_group"] then
    "POST"
  else "DELETE"

/-- A date argument after the amendment's reading of supplied: kept
only when present and nonempty (JavaScript truthiness). -/
def keepDate : Option String → Option String
  | some s => if s = "" then none else some s
  | none => none

/-- The audit-log endpoint as the amended claim describes it: kept
parameters appended `start_date` before `end_date`, each value
URL-encoded, `?` only when at least one parameter is kept. -/
def amendedAuditEndpoint (sd ed : Option String) : String :=
  match keepDate sd, keepDate ed with
  | none, none => "/audit_logs"
  | some s, none => "/audit_logs?" ++ ("start_date" ++ "=" ++ formEncode s)
  | none, some e => "/audit_logs?" ++ ("end_date" ++ "=" ++ formEncode e)
  | some s, some e =>
      "/audit_logs?" ++
        ("start_date" ++ "=" ++ formEncode s ++ "&" ++
          ("end_date" ++ "=" ++ formEncode e))

/-- A concrete client for witnesses. -/
def sampleClient : RetoolClient :=
  RetoolClient.make "https://retool.example.com" "test-key"

/-- A concrete ok response with an empty-object JSON body. -/
def sampleOk : FetchResponse :=
  { status := 200, bodyText := "\x7b\x7d", jsonBody := .ok (.obj .nil) }

/-! ## Lemmas -/

lemma handleClientCall_fst (p : List HttpRequest × Except Thrown Json) :
    (handleClientCall p).1 = p.1 := by
  obtain ⟨reqs, res⟩ := p
  cases res <;> rfl

lemma request_fst (c : RetoolClient) (m ep : String) (b : Option BodyObj)
    (o : FetchOutcome) : (c.request m ep b o).1 = [c.fetchArgs m ep b] := by
  cases o with
  | reject e => rfl
  | resolve r =>
      by_cases h : r.ok <;> simp [RetoolClient.request, h]

/-- Every tool invocation issues exactly the request `toolFetchArgs`. -/
lemma callTool_requests (c : RetoolClient) (call : ToolCall) (o : FetchOutcome) :
    (callTool c call o).1 = [toolFetchArgs c call] := by
  cases call <;>
    simp [callTool, handleClientCall_fst, request_fst, toolFetchArgs,
      toolMethod, toolEndpoint, toolBody,
      RetoolClient.listApps, RetoolClient.getApp, RetoolClient.createApp,
      RetoolClient.deleteApp, RetoolClient.createAppRelease,
      RetoolClient.listFolders, RetoolClient.createFolder,
      RetoolClient.listWorkflows, RetoolClient.triggerWorkflow,
      RetoolClient.listResources, RetoolClient.getResource,
      RetoolClient.listUsers, RetoolClient.getUser, RetoolClient.createUser,
      RetoolClient.deactivateUser, RetoolClient.listGroups,
      RetoolClient.getGroup, RetoolClient.addUserToGroup,
      RetoolClient.getAuditLogs]


lemma request_snd_error (c : RetoolClient) (m ep : String) (b : Option BodyObj)
    (o : FetchOutcome) (e : Thrown) (h : outcomeThrown o = some e) :
    (c.request m ep b o).2 = .error e := by
  cases o with
  | reject e0 =>
      simp [outcomeThrown] at h
      simp [RetoolClient.request, h]
  | resolve r =>
      by_cases hok : r.ok
      · simp [outcomeThrown, hok] at h
      · simp [outcomeThrown, hok] at h
        simp [RetoolClient.request, hok, h]

lemma request_snd_ok (c : RetoolClient) (m ep : String) (b : Option BodyObj)
    (r : FetchResponse) (h : r.ok = true) :
    (c.request m ep b (.resolve r)).2 = r.jsonBody := by
  simp [RetoolClient.request, h]

lemma handleClientCall_snd_error (reqs : List HttpRequest) (e : Thrown) :
    (handleClientCall (reqs, .error e)).2 = formatError e := rfl

lemma handleClientCall_snd_ok (reqs : List HttpRequest) (j : Json) :
    (handleClientCall (reqs, .ok j)).2 = formatResponse j := rfl

/-- On any failing HTTP call, every tool handler catches the thrown
value and returns `formatError` of it. -/
lemma callTool_snd_error (c : RetoolClient) (call : ToolCall)
    (o : FetchOutcome) (e : Thrown) (h : outcomeThrown o = some e) :
    (callTool c call o).2 = formatError e := by
  have key : ∀ m ep b, (handleClientCall (c.request m ep b o)).2 = formatError e := by
    intro m ep b
    have h2 := request_snd_error c m ep b o e h
    have h1 := request_fst c m ep b o
    have : c.request m ep b o = ([c.fetchArgs m ep b], .error e) := by
      apply Prod.ext h1 h2
    rw [this, handleClientCall_snd_error]
  cases call <;>
    simp [callTool, RetoolClient.listApps, RetoolClient.getApp,
      RetoolClient.createApp, RetoolClient.deleteApp,
      RetoolClient.createAppRelease, RetoolClient.listFolders,
      RetoolClient.createFolder, RetoolClient.listWorkflows,
      RetoolClient.triggerWorkflow, RetoolClient.listResources,
      RetoolClient.getResource, RetoolClient.listUsers, RetoolClient.getUser,
      RetoolClient.createUser, RetoolClient.deactivateUser,
      RetoolClient.listGroups, RetoolClient.getGroup,
      RetoolClient.addUserToGroup, RetoolClient.getAuditLogs, key]

/-- On an ok response whose body parses, every tool handler returns
`formatResponse` of the parsed body. -/
lemma callTool_snd_ok (c : RetoolClient) (call : ToolCall)
    (r : FetchResponse) (j : Json) (hok : r.ok = true)
    (hj : r.jsonBody = .ok j) :
    (callTool c call (.resolve r)).2 = formatResponse j := by
  have key : ∀ m ep b,
      (handleClientCall (c.request m ep b (.resolve r))).2 = formatResponse j := by
    intro m ep b
    have h2 := request_snd_ok c m ep b r hok
    rw [hj] at h2
    have h1 := request_fst c m ep b (.resolve r)
    have : c.request m ep b (.resolve r) = ([c.fetchArgs m ep b], .ok j) := by
      apply Prod.ext h1 h2
    rw [this, handleClientCall_snd_ok]
  cases call <;>
    simp [callTool, RetoolClient.listApps, RetoolClient.getApp,
      RetoolClient.createApp, RetoolClient.deleteApp,
      RetoolClient.createAppRelease, RetoolClient.listFolders,
      RetoolClient.createFolder, RetoolClient.listWorkflows,
      RetoolClient.triggerWorkflow, RetoolClient.listResources,
      RetoolClient.getResource, RetoolClient.listUsers, RetoolClient.getUser,
      RetoolClient.createUser, RetoolClient.deactivateUser,
      RetoolClient.listGroups, RetoolClient.getGroup,
      RetoolClient.addUserToGroup, RetoolClient.getAuditLogs, key]

/-! ## Auxiliary string lemmas -/

lemma dropLast_append_getLast? (l : List Char) (c : Char)
    (h : l.getLast? = some c) : l.dropLast ++ [c] = l := by
  induction l with
  | nil => simp at h
  | cons a t ih =>
      cases t with
      | nil => simp_all
      | cons b t2 =>
          rw [List.getLast?_cons_cons] at h
          simp [ih h]

lemma append_data_ne_nil (a b : String) (h : a.data ≠ []) :
    (a ++ b).data ≠ [] := by
  rw [String.data_append]
  intro hc
  exact h (List.append_eq_nil.mp hc).1

lemma ne_empty_of_data (a : String) (h : a.data ≠ []) : a ≠ "" := by
  intro hc
  subst hc
  exact h rfl

lemma claimMethod_eq_toolMethod (call : ToolCall) :
    claimMethod call = toolMethod call := by
  cases call <;> rfl

lemma toolBody_eq_none_of_get (call : ToolCall)
    (h : toolMethod call = "GET") : toolBody call = none := by
  cases call <;> first | rfl | (simp [toolMethod] at h)

lemma formEncode_start_date_key : formEncode "start_date" = "start_date" := rfl

lemma formEncode_end_date_key : formEncode "end_date" = "end_date" := rfl

/-- The audit-log endpoint computation agrees with the amended claim's
four-way description. -/
lemma auditEndpoint_eq_amended (sd ed : Option String) :
    auditEndpoint sd ed = amendedAuditEndpoint sd ed := by
  cases sd with
  | none =>
      cases ed with
      | none => rfl
      | some e =>
          by_cases he : e = ""
          · subst he; rfl
          · have hne : ("end_date=" : String) ++ formEncode e ≠ "" :=
              ne_empty_of_data _ (append_data_ne_nil _ _ (by decide))
            simp [auditEndpoint, truthyStr, he, urlSearchParamsToString,
              formEncodePair, amendedAuditEndpoint, keepDate,
              formEncode_end_date_key, hne]
  | some s =>
      by_cases hs : s = ""
      · subst hs
        cases ed with
        | none => rfl
        | some e =>
            by_cases he : e = ""
            · subst he; rfl
            · have hne : ("end_date=" : String) ++ formEncode e ≠ "" :=
                ne_empty_of_data _ (append_data_ne_nil _ _ (by decide))
              simp [auditEndpoint, truthyStr, he, urlSearchParamsToString,
                formEncodePair, amendedAuditEndpoint, keepDate,
                formEncode_end_date_key, hne]
      · cases ed with
        | none =>
            have hne : ("start_date=" : String) ++ formEncode s ≠ "" :=
              ne_empty_of_data _ (append_data_ne_nil _ _ (by decide))
            simp [auditEndpoint, truthyStr, hs, urlSearchParamsToString,
              formEncodePair, amendedAuditEndpoint, keepDate,
              formEncode_start_date_key, hne]
        | some e =>
            by_cases he : e = ""
            · subst he
              have hne : ("start_date=" : String) ++ formEncode s ≠ "" :=
                ne_empty_of_data _ (append_data_ne_nil _ _ (by decide))
              simp [auditEndpoint, truthyStr, hs, urlSearchParamsToString,
                formEncodePair, amendedAuditEndpoint, keepDate,
                formEncode_start_date_key, hne]
            · have hne : ("start_date=" : String) ++ formEncode s ++ "&" ++
                  ("end_date=" ++ formEncode e) ≠ "" :=
                ne_empty_of_data _ (append_data_ne_nil _ _
                  (append_data_ne_nil _ _ (append_data_ne_nil _ _ (by decide))))
              simp [auditEndpoint, truthyStr, hs, he, urlSearchParamsToString,
                formEncodePair, amendedAuditEndpoint, keepDate,
                formEncode_start_date_key, formEncode_end_date_key, hne]

/-! ## Claims -/

/-- C1: for every registered tool and every argument set accepted by its
schema, one invocation of the handler performs exactly one outbound HTTP
request — no retry, no caching, no extra requests (the issued request
list is exactly the singleton `toolFetchArgs`, for every fetch outcome)
— and returns exactly one protocol envelope (the second component,
of type `Envelope`). -/
theorem C1_one_request_per_invocation (c : RetoolClient) (call : ToolCall)
    (o : FetchOutcome) :
    (callTool c call o).1.length = 1 ∧
    (callTool c call o).1 = [toolFetchArgs c call] := by
  rw [callTool_requests]
  exact ⟨rfl, rfl⟩

/-- C2: whenever the HTTP call fails (the fetch rejects, or the response
status is not ok — exactly the cases where `outcomeThrown` is `some`),
every tool handler returns an envelope with `isError: true` whose single
text content item is `"Error: "` followed by the error's message (or
`"Error: Unknown error occurred"` when the thrown value is not an
`Error`), and does not propagate the exception. -/
theorem C2_failure_error_envelope (c : RetoolClient) (call : ToolCall)
    (o : FetchOutcome) (e : Thrown) (h : outcomeThrown o = some e) :
    (callTool c call o).2 =
      { content := [{ type := "text", text := "Error: " ++ thrownMessage e }]
        isError := some true } := by
  rw [callTool_snd_error c call o e h]
  rfl

theorem C2_failure_error_envelope_witness :
    (callTool sampleClient .listApps (.reject .nonError)).2 =
      { content := [{ type := "text", text := "Error: Unknown error occurred" }]
        isError := some true } :=
  C2_failure_error_envelope sampleClient .listApps (.reject .nonError) .nonError rfl

/-- C3: when the remote API responds with an ok status and a JSON body,
every tool handler returns an envelope without an `isError` property
whose content is a single `"text"` item containing the parsed result
re-serialized by `JSON.stringify` with 2-space indentation. -/
theorem C3_success_envelope (c : RetoolClient) (call : ToolCall)
    (r : FetchResponse) (j : Json) (hok : r.ok = true)
    (hj : r.jsonBody = .ok j) :
    (callTool c call (.resolve r)).2 =
      { content := [{ type := "text", text := jsonStringify2 0 j }]
        isError := none } := by
  rw [callTool_snd_ok c call r j hok hj]
  rfl

theorem C3_success_envelope_witness :
    sampleOk.ok = true ∧
    (callTool sampleClient .listApps (.resolve sampleOk)).2 =
      { content := [{ type := "text", text := "\x7b\x7d" }]
        isError := none } :=
  ⟨rfl, C3_success_envelope sampleClient .listApps sampleOk (.obj .nil) rfl rfl⟩

/-- C4, counterexample: the claim "`RetoolClient.request` throws an
Error if and only if the HTTP response status is not ok" is false: at a
rejecting fetch (e.g. a network error) the method throws although no
response with a non-ok status exists. -/
theorem C4_throws_iff_not_ok_counterexample :
    ¬ ∀ (c : RetoolClient) (m ep : String) (b : Option BodyObj)
        (o : FetchOutcome),
        ((∃ e, (c.request m ep b o).2 = .error e) ↔
          (∃ r, o = .resolve r ∧ r.ok = false)) := by
  intro h
  obtain ⟨r, hr, _⟩ :=
    (h (RetoolClient.make "https://retool.example.com" "k") "GET" "/apps" none
      (.reject (.errObj "network error"))).mp ⟨.errObj "network error", rfl⟩
  exact FetchOutcome.noConfusion hr

/-- C4, amended: when the fetch resolves, `request` throws if and only
if the status is not ok, and then the error message is exactly
`"Retool API error (" + status + "): " + body text`; when the status is
ok it returns the result of `response.json()` unchanged.  A rejected
fetch propagates as-is. -/
theorem C4_request_outcome_amended (c : RetoolClient) (m ep : String)
    (b : Option BodyObj) (r : FetchResponse) (e : Thrown) :
    (c.request m ep b (.reject e)).2 = .error e ∧
    (c.request m ep b (.resolve r)).2 =
      (if r.ok then r.jsonBody
       else .error (.errObj
         ("Retool API error (" ++ toString r.status ++ "): " ++ r.bodyText))) := by
  refine ⟨rfl, ?_⟩
  by_cases hok : r.ok <;> simp [RetoolClient.request, hok]

/-- C5: the adapter holds no mutable state — running any sequence of
tool invocations leaves the client (its `baseUrl` and `apiKey`)
unchanged, and every invocation issues exactly the requests it would
issue against the freshly constructed client, so no invocation can
affect the URL, headers, or behaviour of any other. -/
theorem C5_stateless_invocations (c : RetoolClient)
    (l : List (ToolCall × FetchOutcome)) :
    (runSeq c l).1 = c ∧
    (runSeq c l).2 = (l.map fun p => (callTool c p.1 p.2).1).flatten := by
  induction l with
  | nil => exact ⟨rfl, rfl⟩
  | cons hd tl ih =>
      obtain ⟨call, o⟩ := hd
      obtain ⟨h1, h2⟩ := ih
      refine ⟨?_, ?_⟩
      · simpa [runSeq] using h1
      · simp [runSeq, h2]

/-- C6: the adapter registers exactly 19 tools, all names distinct;
every handler is reachable only under a registered name, and dispatch
(modelled from the spec's registry contract, see `dispatchToolName`)
reaches no handler for a name outside the set. -/
theorem C6_registry_dispatch :
    registeredToolNames.length = 19 ∧
    registeredToolNames.Nodup ∧
    (∀ call : ToolCall, toolName call ∈ registeredToolNames) ∧
    (∀ name, name ∉ registeredToolNames → dispatchToolName name = none) := by
  refine ⟨rfl, by decide, ?_, ?_⟩
  · intro call
    cases call <;> simp [toolName, registeredToolNames]
  · intro name h
    rw [dispatchToolName, List.find?_eq_none]
    intro x hx
    simp only [decide_eq_true_eq]
    intro he
    exact h (he ▸ hx)

theorem C6_registry_dispatch_witness :
    dispatchToolName "retool_list_sessions" = none :=
  C6_registry_dispatch.2.2.2 "retool_list_sessions" (by decide)

/-- C7: each tool issues the HTTP method of its CRUD role as the claim
groups them — the 11 list/get tools GET (with no request body), the 7
mutating tools POST, `retool_delete_app` DELETE. -/
theorem C7_crud_methods (c : RetoolClient) (call : ToolCall)
    (o : FetchOutcome) :
    (callTool c call o).1.map HttpRequest.method = [claimMethod call] ∧
    (claimMethod call = "GET" →
      (callTool c call o).1.map HttpRequest.body = [none]) := by
  rw [callTool_requests]
  constructor
  · rw [claimMethod_eq_toolMethod]
    rfl
  · intro h
    rw [claimMethod_eq_toolMethod] at h
    have hb := toolBody_eq_none_of_get call h
    simp [toolFetchArgs, RetoolClient.fetchArgs, hb]

theorem C7_crud_methods_witness :
    (callTool sampleClient .listApps (.reject .nonError)).1.map
      HttpRequest.body = [none] :=
  (C7_crud_methods sampleClient .listApps (.reject .nonError)).2 rfl

/-- C8: every outbound URL is the constructor's `baseUrl` with at most
one trailing slash removed, concatenated with `/api/v2` and the
endpoint; path parameters are interpolated into the endpoint verbatim
with no URL-encoding. -/
theorem C8_url_composition (b k : String) (call : ToolCall)
    (o : FetchOutcome) :
    (callTool (RetoolClient.make b k) call o).1.map HttpRequest.url =
      [stripSlash b ++ "/api/v2" ++ toolEndpoint call] ∧
    (b = stripSlash b ∨ b = stripSlash b ++ "/") ∧
    (∀ x : String, toolEndpoint (.getApp x) = "/apps/" ++ x ∧
      toolEndpoint (.getResource x) = "/resources/" ++ x ∧
      toolEndpoint (.getUser x) = "/users/" ++ x ∧
      toolEndpoint (.getGroup x) = "/groups/" ++ x ∧
      ∀ d, toolEndpoint (.triggerWorkflow x d) = "/workflows/" ++ x ++ "/trigger") := by
  refine ⟨?_, ?_, ?_⟩
  · rw [callTool_requests]
    rfl
  · by_cases h : b.data.getLast? = some '/'
    · right
      have hd : b.data.dropLast ++ ['/'] = b.data :=
        dropLast_append_getLast? b.data '/' h
      apply String.ext
      rw [String.data_append]
      simp only [stripSlash, if_pos h]
      exact hd.symm
    · left
      simp [stripSlash, h]
  · intro x
    exact ⟨rfl, rfl, rfl, rfl, fun d => rfl⟩

/-- C9, counterexample: the claim says a supplied `startDate` is
appended to the query string; but for the supplied empty string
(accepted by `z.string().optional()`) the code's truthiness test
omits it, so the endpoint lacks the `start_date` parameter the claim
requires. -/
theorem C9_audit_supplied_empty_counterexample :
    auditEndpoint (some "") none = "/audit_logs" ∧
    auditEndpoint (some "") none ≠
      "/audit_logs?" ++ ("start_date" ++ "=" ++ formEncode "") :=
  ⟨rfl, by decide⟩

/-- C9, amended: `getAuditLogs` requests `/audit_logs` with no query
string when neither date is supplied *nonempty* (JavaScript truthiness
treats a supplied empty string as absent); a kept `start_date` is
appended before `end_date`, each value URL-encoded as by
`URLSearchParams`, and an absent or empty parameter is omitted
entirely. -/
theorem C9_audit_query_amended (c : RetoolClient) (sd ed : Option String)
    (o : FetchOutcome) :
    (callTool c (.getAuditLogs sd ed) o).1.map HttpRequest.url =
      [c.baseUrl ++ "/api/v2" ++ amendedAuditEndpoint sd ed] := by
  rw [callTool_requests]
  simp [toolFetchArgs, RetoolClient.fetchArgs, toolEndpoint,
    auditEndpoint_eq_amended]

/-- C10: every outbound request carries exactly the two headers
`Authorization: Bearer <key>` and `Content-Type: application/json`;
when `RETOOL_API_KEY` is unset the key resolves to `""`, the
Authorization value degenerates to `"Bearer "`, and only a startup
warning is printed. -/
theorem C10_headers_and_key (c : RetoolClient) (call : ToolCall)
    (o : FetchOutcome) :
    (callTool c call o).1.map HttpRequest.headers =
      [[("Authorization", "Bearer " ++ c.apiKey),
        ("Content-Type", "application/json")]] ∧
    resolveRetoolApiKey none = "" ∧
    startupWarnings (resolveRetoolApiKey none) =
      ["Warning: RETOOL_API_KEY environment variable is not set"] ∧
    "Bearer " ++ resolveRetoolApiKey none = "Bearer " := by
  refine ⟨?_, rfl, rfl, rfl⟩
  rw [callTool_requests]
  rfl
